import Mathlib

/-!
Verification of the natural-language specification of the `web-client-ui`
repository against a shallow Lean embedding of its source.

The embedding covers the code the frozen claims are about:

* `src/packages/code-studio/src/storage/LocalWorkspaceStorage.ts` —
  workspace persistence in the browser `localStorage` (claims about the
  save/load round trip, the malformed-data fallback and
  `getBooleanServerConfig`);
* `src/packages/dashboard-core-plugins/src/panels/ConsolePanel.tsx`, which
  bundles `IrisGridTableModel`, `IrisGridUtils` and
  `IntegerColumnFormatter` — viewport caching, grid-state
  (de)hydration, pending-data bookkeeping, snapshot validation and
  number-format error degradation.

Modelling conventions, used throughout:

* JavaScript numbers are modelled as `ℚ` (the claims never involve `NaN`,
  infinities or rounding); integer-valued indices that the code only ever
  stores and compares are modelled as `Int` where noted.
* A JS value that may be `undefined`/`null` is an `Option`; a thrown
  exception is the `none`/`.error` branch of an `Option`/`Except` result.
* `Map`s are association lists in insertion order; JS object identity
  (`===`) on arrays passed by reference is modelled by an opaque numeric
  token where the code compares references.
* External packages (`@deephaven/jsapi-utils`' `TableUtils.makeQuickFilter`,
  `@deephaven/grid`'s `GridRange.consolidate`, `dh.i18n.NumberFormat.format`,
  the layout storage) are black boxes to this repository and are passed in
  as function parameters / opaque inputs.
-/

namespace WebClientUI

/-! ## LocalWorkspaceStorage (`LocalWorkspaceStorage.ts`)

The workspace is persisted as a JSON blob.  A JSON round trip
(`JSON.parse (JSON.stringify w)`) drops every `undefined`-valued key, so a
stored workspace is modelled directly in that canonical form: an absent key
and a key holding `undefined` are both `none`.  Fields the code never reads
or writes are carried opaquely so the round-trip statements are about whole
values. -/

/-- Decimal/integer format options object (`defaultFormatString` may be
absent). -/
structure FormatOptions where
  defaultFormatString : Option String
deriving DecidableEq, Repr

/-- The `defaultNotebookSettings` object. -/
structure NotebookSettings where
  isMinimapEnabled : Option Bool
deriving DecidableEq, Repr

/-- The `settings` object of a stored workspace, in canonical JSON form:
every field the loader touches is optional.  `formatter` is an opaque list
(the code only ever writes `[]` into it). -/
structure WorkspaceSettings where
  defaultDateTimeFormat : Option String
  formatter : List String
  timeZone : Option String
  showTimeZone : Option Bool
  showTSeparator : Option Bool
  disableMoveConfirmation : Option Bool
  defaultDecimalFormatOptions : Option FormatOptions
  defaultIntegerFormatOptions : Option FormatOptions
  truncateNumbersWithPound : Option Bool
  defaultNotebookSettings : Option NotebookSettings
deriving DecidableEq, Repr

/-- `CustomzableWorkspaceData`: the `data` object produced by
`makeWorkspaceData`.  `layoutConfig`, `links` and `filterSets` come from the
external layout storage and are opaque; `closed` is `[{}]` in the source,
modelled as a one-element list holding an empty (opaque) object. -/
structure WorkspaceData where
  settings : WorkspaceSettings
  layoutConfig : List String
  closed : List (List String)
  links : List String
  filterSets : List String
deriving DecidableEq, Repr

/-- A workspace value as stored in / parsed from `localStorage`.  The loader
dereferences `workspace.settings`, and `makeDefaultWorkspace` builds
`{ data: ... }`; both shapes are representable. -/
structure Workspace where
  settings : Option WorkspaceSettings
  data : Option WorkspaceData
deriving DecidableEq, Repr

/-- A value stored under a `localStorage` key: either a string that
`JSON.parse` rejects, or the JSON serialization of a workspace. -/
inductive StoredJson
  | malformed
  | workspace (w : Workspace)
deriving DecidableEq, Repr

/-- The browser `localStorage`, restricted to the shapes this module stores:
an association of keys to stored strings. -/
def LocalStore := List (String × StoredJson)

/-- `localStorage.getItem`: first binding of the key, `null` if absent. -/
def getItem (store : LocalStore) (key : String) : Option StoredJson :=
  match store with
  | [] => none
  | (k, v) :: rest => if k = key then some v else getItem rest key

/-- `localStorage.setItem`: replace the first binding of the key, or add
one. -/
def setItem (store : LocalStore) (key : String) (value : StoredJson) : LocalStore :=
  match store with
  | [] => [(key, value)]
  | (k, v) :: rest =>
    if k = key then (k, value) :: rest else (k, v) :: setItem rest key value

/-- The JS `String.prototype.toLowerCase()` method: lower-case every
character. -/
def jsToLowerCase (s : String) : String := String.mk (s.data.map Char.toLower)

/-- The `serverConfigValues` parameter: `Map<string, string> | undefined`. -/
def ServerConfig := Option (List (String × String))

/-- `Map.get` on the underlying association list: first binding wins. -/
def mapGet (m : List (String × String)) (key : String) : Option String :=
  match m with
  | [] => none
  | (k, v) :: rest => if k = key then some v else mapGet rest key

/-- `serverConfigValues?.get(key)`. -/
def configGet (cfg : ServerConfig) (key : String) : Option String :=
  match cfg with
  | none => none
  | some m => mapGet m key

namespace LocalWorkspaceStorage

/-- `LocalWorkspaceStorage.STORAGE_KEY`. -/
def STORAGE_KEY : String := "deephaven.WorkspaceStorage"

/-- `LocalWorkspaceStorage.getBooleanServerConfig`. -/
def getBooleanServerConfig (cfg : ServerConfig) (key : String) : Option Bool :=
  if (configGet cfg key).map jsToLowerCase = some "true" then some true
  else if (configGet cfg key).map jsToLowerCase = some "false" then some false
  else none

/-- The default layout returned by the external
`UserLayoutUtils.getDefaultLayout(layoutStorage, options?.isConsoleAvailable)`
call; this repository consumes it as a black box, so it is an input here. -/
structure DefaultLayout where
  filterSets : List String
  links : List String
  layoutConfig : List String
deriving DecidableEq, Repr

/-- `LocalWorkspaceStorage.makeWorkspaceData` (the pure part; the awaited
default layout is passed in). -/
def makeWorkspaceData (layout : DefaultLayout) (cfg : ServerConfig) : WorkspaceData :=
  { settings :=
      { defaultDateTimeFormat := configGet cfg "dateTimeFormat"
        formatter := []
        timeZone := configGet cfg "timeZone"
        showTimeZone := getBooleanServerConfig cfg "showTimeZone"
        showTSeparator := getBooleanServerConfig cfg "showTSeparator"
        disableMoveConfirmation := getBooleanServerConfig cfg "disableMoveConfirmation"
        defaultDecimalFormatOptions :=
          if configGet cfg "decimalFormat" ≠ none then
            some { defaultFormatString := configGet cfg "decimalFormat" }
          else none
        defaultIntegerFormatOptions :=
          if configGet cfg "integerFormat" ≠ none then
            some { defaultFormatString := configGet cfg "integerFormat" }
          else none
        truncateNumbersWithPound := getBooleanServerConfig cfg "truncateNumbersWithPound"
        defaultNotebookSettings :=
          if configGet cfg "isMinimapEnabled" ≠ none then
            some { isMinimapEnabled := getBooleanServerConfig cfg "isMinimapEnabled" }
          else none }
    layoutConfig := layout.layoutConfig
    closed := [[]]
    links := layout.links
    filterSets := layout.filterSets }

/-- `LocalWorkspaceStorage.makeDefaultWorkspace`: wraps the default data in
`{ data: ... }`. -/
def makeDefaultWorkspace (layout : DefaultLayout) (cfg : ServerConfig) : Workspace :=
  { settings := none, data := some (makeWorkspaceData layout cfg) }

/-- The body of the `try` block of `LocalWorkspaceStorage.load`: parse the
stored item and patch missing settings from the server config.  `none` is a
thrown exception — `JSON.parse` failing on a missing/malformed item, or a
`TypeError` from dereferencing an absent `settings`,
`settings.defaultDecimalFormatOptions`, `settings.defaultIntegerFormatOptions`
or `settings.defaultNotebookSettings` object.  The field updates follow the
source order. -/
def loadTry (item : Option StoredJson) (cfg : ServerConfig) : Option Workspace := do
  let stored ← item
  let w ← match stored with
    | .malformed => none
    | .workspace w => some w
  let s ← w.settings
  let s := if s.timeZone = none then
      { s with timeZone := configGet cfg "timeZone" } else s
  let s := if s.defaultDateTimeFormat = none then
      { s with defaultDateTimeFormat := configGet cfg "dateTimeFormat" } else s
  let dfo ← s.defaultDecimalFormatOptions
  let s := if dfo.defaultFormatString = none ∧ configGet cfg "decimalFormat" ≠ none then
      { s with defaultDecimalFormatOptions := some (FormatOptions.mk (configGet cfg "decimalFormat")) }
    else s
  let ifo ← s.defaultIntegerFormatOptions
  let s := if ifo.defaultFormatString = none ∧ configGet cfg "integerFormat" ≠ none then
      { s with defaultIntegerFormatOptions := some (FormatOptions.mk (configGet cfg "integerFormat")) }
    else s
  let s := if s.truncateNumbersWithPound = none then
      { s with truncateNumbersWithPound := getBooleanServerConfig cfg "truncateNumbersWithPound" }
    else s
  let dns ← s.defaultNotebookSettings
  let s := if dns.isMinimapEnabled = none ∧ configGet cfg "isMinimapEnabled" ≠ none then
      { s with defaultNotebookSettings := some (NotebookSettings.mk (getBooleanServerConfig cfg "isMinimapEnabled")) }
    else s
  pure { w with settings := some s }

/-- `LocalWorkspaceStorage.load`: the `try` body with the `catch` falling
back to the default workspace. -/
def load (store : LocalStore) (cfg : ServerConfig) (layout : DefaultLayout) : Workspace :=
  (loadTry (getItem store STORAGE_KEY) cfg).getD (makeDefaultWorkspace layout cfg)

/-- `LocalWorkspaceStorage.save`: `localStorage.setItem(STORAGE_KEY,
JSON.stringify(workspace))`. -/
def save (store : LocalStore) (w : Workspace) : LocalStore :=
  setItem store STORAGE_KEY (StoredJson.workspace w)

end LocalWorkspaceStorage

/-! ### Helper lemmas for the storage claims -/

theorem getItem_setItem_self (store : LocalStore) (key : String) (v : StoredJson) :
    getItem (setItem store key v) key = some v := by
  induction store with
  | nil => simp [setItem, getItem]
  | cons hd tl ih =>
    obtain ⟨k, v'⟩ := hd
    by_cases h : k = key <;> simp [setItem, getItem, h, ih]

theorem getItem_setItem_ne (store : LocalStore) (key k : String) (v : StoredJson)
    (h : k ≠ key) : getItem (setItem store key v) k = getItem store k := by
  induction store with
  | nil =>
    have hne : ¬key = k := fun hh => h hh.symm
    simp [setItem, getItem, hne]
  | cons hd tl ih =>
    obtain ⟨k', v'⟩ := hd
    by_cases hk : k' = key
    · subst hk
      have hne : ¬k' = k := fun hh => h hh.symm
      simp [setItem, getItem, hne]
    · by_cases hkk : k' = k <;> simp [setItem, getItem, hk, hkk, ih, h]

theorem ifUpdate_timeZone (s : WorkspaceSettings) :
    (if s.timeZone = none then { s with timeZone := none } else s) = s := by
  split
  case isTrue h => rw [← h]
  case isFalse => rfl

theorem ifUpdate_dateTime (s : WorkspaceSettings) :
    (if s.defaultDateTimeFormat = none then { s with defaultDateTimeFormat := none } else s)
      = s := by
  split
  case isTrue h => rw [← h]
  case isFalse => rfl

theorem ifUpdate_truncate (s : WorkspaceSettings) :
    (if s.truncateNumbersWithPound = none then { s with truncateNumbersWithPound := none } else s)
      = s := by
  split
  case isTrue h => rw [← h]
  case isFalse => rfl

/-- With no server config values, the `try` body of `load` returns the parsed
workspace unchanged, provided the settings define the three sub-objects the
loader dereferences. -/
theorem loadTry_no_config (w : Workspace) (s : WorkspaceSettings)
    (hs : w.settings = some s)
    (hdec : s.defaultDecimalFormatOptions ≠ none)
    (hint : s.defaultIntegerFormatOptions ≠ none)
    (hnb : s.defaultNotebookSettings ≠ none) :
    LocalWorkspaceStorage.loadTry (some (StoredJson.workspace w)) none = some w := by
  obtain ⟨dfo, hdfo⟩ := Option.ne_none_iff_exists'.mp hdec
  obtain ⟨ifo, hifo⟩ := Option.ne_none_iff_exists'.mp hint
  obtain ⟨dns, hdns⟩ := Option.ne_none_iff_exists'.mp hnb
  obtain ⟨ws, wd⟩ := w
  obtain ⟨f1, f2, f3, f4, f5, f6, f7, f8, f9, f10⟩ := s
  simp only at hs hdfo hifo hdns
  subst hs hdfo hifo hdns
  by_cases h3 : f3 = none <;> by_cases h1 : f1 = none <;> by_cases h9 : f9 = none <;>
    simp [LocalWorkspaceStorage.loadTry, configGet,
      LocalWorkspaceStorage.getBooleanServerConfig, h3, h1, h9]

/-- C1: `LocalWorkspaceStorage` persists the workspace as a JSON blob under
the single fixed `localStorage` key `deephaven.WorkspaceStorage` (that key
now holds the serialized workspace and no other key changed), and save then
load round-trips: for every workspace whose settings object defines
`defaultDecimalFormatOptions`, `defaultIntegerFormatOptions` and
`defaultNotebookSettings`, `load()` with no server config values after
`save(w)` returns `w`.  Workspaces are modelled in the canonical form that
`JSON.parse (JSON.stringify w)` produces (an `undefined` field and an absent
field are both `none`), so the returned workspace being `w` is exactly the
claim's `JSON.parse(JSON.stringify(w))`. -/
theorem c1_save_load_roundtrip (store : LocalStore) (w : Workspace)
    (layout : LocalWorkspaceStorage.DefaultLayout) (s : WorkspaceSettings)
    (hs : w.settings = some s)
    (hdec : s.defaultDecimalFormatOptions ≠ none)
    (hint : s.defaultIntegerFormatOptions ≠ none)
    (hnb : s.defaultNotebookSettings ≠ none) :
    getItem (LocalWorkspaceStorage.save store w) LocalWorkspaceStorage.STORAGE_KEY
        = some (StoredJson.workspace w)
    ∧ (∀ k, k ≠ LocalWorkspaceStorage.STORAGE_KEY →
        getItem (LocalWorkspaceStorage.save store w) k = getItem store k)
    ∧ LocalWorkspaceStorage.load (LocalWorkspaceStorage.save store w) none layout = w := by
  refine ⟨getItem_setItem_self store _ _, fun k hk => getItem_setItem_ne store _ k _ hk, ?_⟩
  unfold LocalWorkspaceStorage.load LocalWorkspaceStorage.save
  rw [getItem_setItem_self, loadTry_no_config w s hs hdec hint hnb]
  rfl

/-- Witness for C1 at a concrete workspace and empty storage. -/
theorem c1_save_load_roundtrip_witness :
    LocalWorkspaceStorage.load
        (LocalWorkspaceStorage.save []
          { settings := some
              { defaultDateTimeFormat := some "yyyy-MM-dd"
                formatter := []
                timeZone := some "America/New_York"
                showTimeZone := some true
                showTSeparator := none
                disableMoveConfirmation := none
                defaultDecimalFormatOptions := some { defaultFormatString := some "##0.00" }
                defaultIntegerFormatOptions := some { defaultFormatString := none }
                truncateNumbersWithPound := none
                defaultNotebookSettings := some { isMinimapEnabled := some false } }
            data := none })
        none { filterSets := [], links := [], layoutConfig := [] }
      = { settings := some
            { defaultDateTimeFormat := some "yyyy-MM-dd"
              formatter := []
              timeZone := some "America/New_York"
              showTimeZone := some true
              showTSeparator := none
              disableMoveConfirmation := none
              defaultDecimalFormatOptions := some { defaultFormatString := some "##0.00" }
              defaultIntegerFormatOptions := some { defaultFormatString := none }
              truncateNumbersWithPound := none
              defaultNotebookSettings := some { isMinimapEnabled := some false } }
          data := none } :=
  (c1_save_load_roundtrip [] _ _ _ rfl (by simp) (by simp) (by simp)).2.2

/-- The `try` body of `load` fails (throws) whenever the stored item is
absent or malformed, or the parsed workspace lacks one of the objects the
loader dereferences. -/
theorem loadTry_fails (item : Option StoredJson) (cfg : ServerConfig)
    (h : item = none ∨ item = some StoredJson.malformed ∨
      ∃ w, item = some (StoredJson.workspace w) ∧
        (w.settings = none ∨ ∃ s, w.settings = some s ∧
          (s.defaultDecimalFormatOptions = none ∨ s.defaultIntegerFormatOptions = none ∨
            s.defaultNotebookSettings = none))) :
    LocalWorkspaceStorage.loadTry item cfg = none := by
  rcases h with h | h | ⟨w, hw, hset⟩
  · subst h; rfl
  · subst h; rfl
  · subst hw
    obtain ⟨ws, wd⟩ := w
    rcases hset with hset | ⟨s, hs, hfield⟩
    · simp only at hset
      subst hset
      rfl
    · obtain ⟨f1, f2, f3, f4, f5, f6, f7, f8, f9, f10⟩ := s
      simp only at hs
      subst hs
      rcases hfield with h7 | h8 | h10
      · simp only at h7
        subst h7
        simp [LocalWorkspaceStorage.loadTry,
          apply_ite WorkspaceSettings.defaultDecimalFormatOptions]
      · simp only at h8
        subst h8
        cases f7 with
        | none =>
          simp [LocalWorkspaceStorage.loadTry,
            apply_ite WorkspaceSettings.defaultDecimalFormatOptions]
        | some dfo =>
          simp [LocalWorkspaceStorage.loadTry,
            apply_ite WorkspaceSettings.defaultDecimalFormatOptions,
            apply_ite WorkspaceSettings.defaultIntegerFormatOptions]
      · simp only at h10
        subst h10
        cases f7 with
        | none =>
          simp [LocalWorkspaceStorage.loadTry,
            apply_ite WorkspaceSettings.defaultDecimalFormatOptions]
        | some dfo =>
          cases f8 with
          | none =>
            simp [LocalWorkspaceStorage.loadTry,
              apply_ite WorkspaceSettings.defaultDecimalFormatOptions,
              apply_ite WorkspaceSettings.defaultIntegerFormatOptions]
          | some ifo =>
            simp [LocalWorkspaceStorage.loadTry,
              apply_ite WorkspaceSettings.defaultDecimalFormatOptions,
              apply_ite WorkspaceSettings.defaultIntegerFormatOptions,
              apply_ite WorkspaceSettings.defaultNotebookSettings]

/-- C2: if the string stored under `deephaven.WorkspaceStorage` is absent or
cannot be parsed as JSON, or the parsed value lacks the settings structure
`load` dereferences (`settings` itself, or its `defaultDecimalFormatOptions`,
`defaultIntegerFormatOptions` or `defaultNotebookSettings` objects),
`load` does not propagate the error and instead resolves to the default
workspace produced by `makeDefaultWorkspace` from the (externally loaded)
layout storage contents and the server config values. -/
theorem c2_malformed_falls_back_to_default (store : LocalStore) (cfg : ServerConfig)
    (layout : LocalWorkspaceStorage.DefaultLayout)
    (h : getItem store LocalWorkspaceStorage.STORAGE_KEY = none ∨
      getItem store LocalWorkspaceStorage.STORAGE_KEY = some StoredJson.malformed ∨
      ∃ w, getItem store LocalWorkspaceStorage.STORAGE_KEY = some (StoredJson.workspace w) ∧
        (w.settings = none ∨ ∃ s, w.settings = some s ∧
          (s.defaultDecimalFormatOptions = none ∨ s.defaultIntegerFormatOptions = none ∨
            s.defaultNotebookSettings = none))) :
    LocalWorkspaceStorage.load store cfg layout
      = LocalWorkspaceStorage.makeDefaultWorkspace layout cfg := by
  unfold LocalWorkspaceStorage.load
  rw [loadTry_fails (getItem store LocalWorkspaceStorage.STORAGE_KEY) cfg]
  · rfl
  · rcases h with h | h | ⟨w, hw, hset⟩
    · exact Or.inl h
    · exact Or.inr (Or.inl h)
    · exact Or.inr (Or.inr ⟨w, hw, hset⟩)

/-- Witness for C2: empty storage (no stored item) falls back to the default
workspace. -/
theorem c2_malformed_falls_back_to_default_witness :
    LocalWorkspaceStorage.load [] none { filterSets := [], links := [], layoutConfig := [] }
      = LocalWorkspaceStorage.makeDefaultWorkspace
          { filterSets := [], links := [], layoutConfig := [] } none :=
  c2_malformed_falls_back_to_default [] none _ (Or.inl rfl)

/-- C8: `getBooleanServerConfig m k` returns `true` exactly when the map
contains the key with a value lowercasing to `"true"`, `false` exactly when
the value lowercases to `"false"`, and `undefined` in every other case —
including when the map itself is `undefined` or the key is absent (then
`configGet` is `none` and no `v` exists). -/
theorem c8_getBooleanServerConfig_spec (cfg : ServerConfig) (key : String) :
    (LocalWorkspaceStorage.getBooleanServerConfig cfg key = some true ↔
      ∃ v, configGet cfg key = some v ∧ jsToLowerCase v = "true")
    ∧ (LocalWorkspaceStorage.getBooleanServerConfig cfg key = some false ↔
      ∃ v, configGet cfg key = some v ∧ jsToLowerCase v = "false")
    ∧ (LocalWorkspaceStorage.getBooleanServerConfig cfg key = none ↔
      ∀ v, configGet cfg key = some v → jsToLowerCase v ≠ "true" ∧ jsToLowerCase v ≠ "false") := by
  cases hv : configGet cfg key with
  | none => simp [LocalWorkspaceStorage.getBooleanServerConfig, hv]
  | some v =>
    by_cases ht : jsToLowerCase v = "true"
    · simp [LocalWorkspaceStorage.getBooleanServerConfig, hv, ht]
    · by_cases hf : jsToLowerCase v = "false" <;>
        simp [LocalWorkspaceStorage.getBooleanServerConfig, hv, ht, hf]

/-- Witness for C8 on a concrete map: the value `"TRUE"` lowercases to
`"true"`, so the result is `some true`. -/
theorem c8_getBooleanServerConfig_spec_witness :
    LocalWorkspaceStorage.getBooleanServerConfig (some [("showTimeZone", "TRUE")])
        "showTimeZone" = some true :=
  (c8_getBooleanServerConfig_spec (some [("showTimeZone", "TRUE")]) "showTimeZone").1.mpr
    ⟨"TRUE", rfl, by decide⟩

/-! ## IrisGrid model (`ConsolePanel.tsx` bundle)

The bundle contains `IrisGridTableModel`, `IrisGridUtils` and
`IntegerColumnFormatter`.  Grid/table indices are JS numbers; they are
modelled as `Int` where the code only compares and stores them, and as `ℚ`
where a claim depends on integrality checks (`IrisGridUtils.isValidIndex`).
-/

/-- A `dh.Column`: the grid code only reads `name` and `type`. -/
structure Column where
  name : String
  type : String
deriving DecidableEq, Repr

/-- JS `Array.prototype.findIndex` via an optional index (helper). -/
def findIdxOpt {α : Type} (p : α → Bool) : List α → Option Nat
  | [] => none
  | a :: rest => if p a then some 0 else (findIdxOpt p rest).map (· + 1)

/-- JS `Array.prototype.findIndex`: index of the first match, `-1` when no
element matches. -/
def jsFindIndex {α : Type} (p : α → Bool) (l : List α) : Int :=
  match findIdxOpt p l with
  | some i => (i : Int)
  | none => -1

/-- JS `array[i]` for a possibly negative or out-of-range index: the element
when `0 ≤ i < length`, `undefined` otherwise. -/
def jsGetElem {α : Type} (l : List α) (i : Int) : Option α :=
  if 0 ≤ i then l.get? i.toNat else none

/-- The grid-state slice that `dehydrateGridState` reads
(`isStuckToBottom`, `isStuckToRight`, `movedColumns`, `movedRows`).
A moved-column / moved-row entry `{ from, to }` is the pair
`(from, to)`. -/
structure GridState where
  isStuckToBottom : Bool
  isStuckToRight : Bool
  movedColumns : List (Int × Int)
  movedRows : List (Int × Int)
deriving DecidableEq, Repr

/-- The dehydrated grid state: moved columns are recorded as
`(fromName, toName)` pairs. -/
structure DehydratedGridState where
  isStuckToBottom : Bool
  isStuckToRight : Bool
  movedColumns : List (String × String)
  movedRows : List (Int × Int)
deriving DecidableEq, Repr

/-- A `from`/`to` entry of a saved moved column: legacy saves hold column
names (strings), older ones hold model indices (numbers). -/
inductive ColRef
  | colName (s : String)
  | colIndex (i : Int)
deriving DecidableEq, Repr

/-- The grid state accepted by `hydrateGridState`: moved columns may mix
names and indices. -/
structure HydrateGridStateInput where
  isStuckToBottom : Bool
  isStuckToRight : Bool
  movedColumns : List (ColRef × ColRef)
  movedRows : List (Int × Int)
deriving DecidableEq, Repr

/-- Reinterpret a dehydrated grid state as input for `hydrateGridState`
(every saved `from`/`to` is a column name). -/
def DehydratedGridState.toInput (d : DehydratedGridState) : HydrateGridStateInput :=
  { isStuckToBottom := d.isStuckToBottom
    isStuckToRight := d.isStuckToRight
    movedColumns := d.movedColumns.map fun m => (ColRef.colName m.1, ColRef.colName m.2)
    movedRows := d.movedRows }

namespace IrisGridUtils

/-- `columns[i].name` as used by `dehydrateGridState` after its bounds
filter; the `""` default is never read because the filter guarantees
`0 ≤ i < columns.length`. -/
def nameAt (columns : List Column) (i : Int) : String :=
  ((jsGetElem columns i).map Column.name).getD ""

/-- `IrisGridUtils.dehydrateGridState` (the model's columns stand for
`model.columns`): moved columns with an out-of-range endpoint are dropped,
the rest are stored by column name; `movedRows` is copied. -/
def dehydrateGridState (columns : List Column) (gridState : GridState) :
    DehydratedGridState :=
  { isStuckToBottom := gridState.isStuckToBottom
    isStuckToRight := gridState.isStuckToRight
    movedColumns :=
      (gridState.movedColumns.filter fun m =>
        decide (0 ≤ m.2 ∧ m.2 < (columns.length : Int) ∧
          0 ≤ m.1 ∧ m.1 < (columns.length : Int))).map
        fun m => (nameAt columns m.1, nameAt columns m.2)
    movedRows := gridState.movedRows }

/-- `IrisGridUtils.parseCustomColumnNames`: the part of each custom-column
expression before the first `=`. -/
def parseCustomColumnNames (customColumns : List String) : List String :=
  customColumns.map fun c => (c.splitOn "=").headD ""

/-- One entry of `hydrateGridState`'s `movedColumns.map`: two names are
looked up with `findIndex`; a mixed name/index pair throws (`none`); two
indices pass through. -/
def hydrateMovedColumn (columnNames : List String) :
    ColRef × ColRef → Option (Int × Int)
  | (ColRef.colName f, ColRef.colName t) =>
      some (jsFindIndex (fun n => n == f) columnNames,
        jsFindIndex (fun n => n == t) columnNames)
  | (ColRef.colName _, ColRef.colIndex _) => none
  | (ColRef.colIndex _, ColRef.colName _) => none
  | (ColRef.colIndex f, ColRef.colIndex t) => some (f, t)

/-- The `movedColumns.map(...)` of `hydrateGridState`: a throw anywhere
aborts the whole map. -/
def hydrateMovedColumns (columnNames : List String) :
    List (ColRef × ColRef) → Option (List (Int × Int))
  | [] => some []
  | m :: rest => do
    let x ← hydrateMovedColumn columnNames m
    let xs ← hydrateMovedColumns columnNames rest
    pure (x :: xs)

/-- `IrisGridUtils.hydrateGridState`: map saved names back to indices over
the model's column names extended with the custom-column names, then drop
out-of-range pairs. -/
def hydrateGridState (columns : List Column) (gridState : HydrateGridStateInput)
    (customColumns : List String) : Option GridState := do
  let columnNames := columns.map Column.name ++ parseCustomColumnNames customColumns
  let mapped ← hydrateMovedColumns columnNames gridState.movedColumns
  pure
    { isStuckToBottom := gridState.isStuckToBottom
      isStuckToRight := gridState.isStuckToRight
      movedColumns := mapped.filter fun m =>
        decide (0 ≤ m.2 ∧ m.2 < (columnNames.length : Int) ∧
          0 ≤ m.1 ∧ m.1 < (columnNames.length : Int))
      movedRows := gridState.movedRows }

end IrisGridUtils

/-! ### Helper lemmas for the grid-state round trip (C3) -/

theorem findIdxOpt_nodup_get (l : List String) (i : Nat) (hi : i < l.length)
    (hnodup : l.Nodup) :
    findIdxOpt (fun n => n == l[i]) l = some i := by
  induction l generalizing i with
  | nil => simp at hi
  | cons a rest ih =>
    cases i with
    | zero => simp [findIdxOpt]
    | succ j =>
      have hj : j < rest.length := by simpa using hi
      have hmem : rest[j] ∈ rest := List.getElem_mem hj
      have hne : a ≠ rest[j] := by
        intro hcontra
        exact (List.nodup_cons.mp hnodup).1 (hcontra ▸ hmem)
      simp [findIdxOpt, hne, ih j hj (List.nodup_cons.mp hnodup).2]

theorem jsFindIndex_nodup_get (l : List String) (i : Nat) (hi : i < l.length)
    (hnodup : l.Nodup) :
    jsFindIndex (fun n => n == l[i]) l = (i : Int) := by
  simp [jsFindIndex, findIdxOpt_nodup_get l i hi hnodup]

theorem nameAt_findIndex (columns : List Column) (i : Int)
    (hnodup : (columns.map Column.name).Nodup)
    (h0 : 0 ≤ i) (hlt : i < (columns.length : Int)) :
    jsFindIndex (fun n => n == IrisGridUtils.nameAt columns i)
      (columns.map Column.name) = i := by
  have hnat : i.toNat < columns.length := by omega
  have hnat' : i.toNat < (columns.map Column.name).length := by
    simpa [List.length_map] using hnat
  have hname : IrisGridUtils.nameAt columns i = (columns.map Column.name)[i.toNat] := by
    simp [IrisGridUtils.nameAt, jsGetElem, h0, List.get?_eq_getElem?,
      List.getElem?_eq_getElem, hnat]
  rw [hname, jsFindIndex_nodup_get _ _ hnat' hnodup]
  exact Int.toNat_of_nonneg h0

theorem hydrateMovedColumns_roundtrip (columns : List Column) (l : List (Int × Int))
    (hnodup : (columns.map Column.name).Nodup)
    (hb : ∀ m ∈ l, 0 ≤ m.1 ∧ m.1 < (columns.length : Int) ∧
      0 ≤ m.2 ∧ m.2 < (columns.length : Int)) :
    IrisGridUtils.hydrateMovedColumns (columns.map Column.name)
      (l.map fun m => (ColRef.colName (IrisGridUtils.nameAt columns m.1),
        ColRef.colName (IrisGridUtils.nameAt columns m.2))) = some l := by
  induction l with
  | nil => rfl
  | cons m rest ih =>
    obtain ⟨h1a, h1b, h2a, h2b⟩ := hb m (List.mem_cons_self m rest)
    have hrest := ih fun x hx => hb x (List.mem_cons_of_mem m hx)
    simp [IrisGridUtils.hydrateMovedColumns, IrisGridUtils.hydrateMovedColumn,
      hrest, nameAt_findIndex columns m.1 hnodup h1a h1b,
      nameAt_findIndex columns m.2 hnodup h2a h2b]

/-- C3: grid UI state serialization round-trips.  For a model whose column
names are pairwise distinct and a grid state whose `movedColumns` endpoints
all lie in `[0, columns.length)`, hydrating the dehydrated state (with no
custom columns) returns the same `isStuckToBottom`, `isStuckToRight`,
`movedRows` and the same `movedColumns` index pairs. -/
theorem c3_grid_state_roundtrip (columns : List Column) (gs : GridState)
    (hnodup : (columns.map Column.name).Nodup)
    (hb : ∀ m ∈ gs.movedColumns, 0 ≤ m.1 ∧ m.1 < (columns.length : Int) ∧
      0 ≤ m.2 ∧ m.2 < (columns.length : Int)) :
    IrisGridUtils.hydrateGridState columns
        ((IrisGridUtils.dehydrateGridState columns gs).toInput) [] = some gs := by
  obtain ⟨sb, sr, mc, mr⟩ := gs
  simp only at hb
  have hfilter : (mc.filter fun m =>
      decide (0 ≤ m.2 ∧ m.2 < (columns.length : Int) ∧
        0 ≤ m.1 ∧ m.1 < (columns.length : Int))) = mc := by
    apply List.filter_eq_self.mpr
    intro a ha
    obtain ⟨x1, x2, x3, x4⟩ := hb a ha
    simp [x1, x2, x3, x4]
  simp only [IrisGridUtils.dehydrateGridState, DehydratedGridState.toInput,
    IrisGridUtils.hydrateGridState, IrisGridUtils.parseCustomColumnNames,
    List.map_nil, List.append_nil, hfilter, List.map_map, Function.comp_def]
  rw [hydrateMovedColumns_roundtrip columns mc hnodup hb]
  simp [hfilter, List.length_map]
  intro a b hab
  obtain ⟨x1, x2, x3, x4⟩ := hb (a, b) hab
  exact ⟨x3, x4, x1, x2⟩

/-- Witness for C3 at a two-column model with one moved column and one moved
row. -/
theorem c3_grid_state_roundtrip_witness :
    IrisGridUtils.hydrateGridState
        [Column.mk "A" "int", Column.mk "B" "long"]
        ((IrisGridUtils.dehydrateGridState
            [Column.mk "A" "int", Column.mk "B" "long"]
            (GridState.mk true false [(0, 1)] [(2, 3)])).toInput) []
      = some (GridState.mk true false [(0, 1)] [(2, 3)]) :=
  c3_grid_state_roundtrip _ _ (by decide) (by decide)

/-! ### Filter and format error degradation (C4)

`TableUtils.makeQuickFilter` (from `@deephaven/jsapi-utils`) and
`dh.i18n.NumberFormat.format` are external builders this repository calls as
black boxes; a call either returns a value or throws.  They are modelled as
parameters returning `Option`, with `none` standing for a throw. -/

/-- An entry of the `inputFilters` argument of
`getFiltersFromInputFilters`. -/
structure InputFilter where
  name : String
  type : String
  value : String
deriving DecidableEq, Repr

/-- The `{ text, filter }` entry that `hydrateQuickFilters` builds for each
saved quick filter. -/
structure QuickFilterEntry (φ : Type) where
  text : String
  filter : Option φ
deriving DecidableEq, Repr

namespace IrisGridUtils

/-- `IrisGridUtils.getColumn`: `columns[columnIndex]` when
`columnIndex < columns.length` (JS yields `undefined` for a negative index),
otherwise log and return `null`. -/
def getColumn (columns : List Column) (columnIndex : Int) : Option Column :=
  if columnIndex < (columns.length : Int) then jsGetElem columns columnIndex
  else none

/-- `IrisGridUtils.hydrateQuickFilters`: each saved `[columnIndex, {text}]`
entry is mapped to `[columnIndex, {text, filter}]`; if looking up the column
fails or the external `TableUtils.makeQuickFilter` throws (`mqf … = none`),
the entry keeps a `null` filter instead of propagating.  The resulting list
is what `new Map(importedFilters)` is built from. -/
def hydrateQuickFilters {φ : Type} (mqf : Column → String → String → Option φ)
    (columns : List Column) (savedQuickFilters : List (Int × String))
    (timeZone : String) : List (Int × QuickFilterEntry φ) :=
  savedQuickFilters.map fun e =>
    let filter :=
      match getColumn columns e.1 with
      | some column => mqf column e.2 timeZone
      | none => none
    (e.1, { text := e.2, filter := filter })

/-- `IrisGridUtils.getFiltersFromInputFilters`: build a quick filter for
each input filter whose column matches by name and type; an entry whose
column is missing or whose construction throws becomes `null` and is
filtered out of the result. -/
def getFiltersFromInputFilters {φ : Type} (mqf : Column → String → String → Option φ)
    (columns : List Column) (inputFilters : List InputFilter)
    (timeZone : String) : List φ :=
  (inputFilters.map fun f =>
    match columns.find? fun c => c.name == f.name && c.type == f.type with
    | some column => mqf column f.value timeZone
    | none => none).filterMap id

end IrisGridUtils

/-- An `IntegerColumnFormat` object: `type` and `label` are opaque strings;
`formatString` may be empty (falsy) and `multiplier` absent. -/
structure IntegerColumnFormat where
  label : String
  type : String
  formatString : String
  multiplier : Option ℚ
deriving DecidableEq, Repr

namespace IntegerColumnFormatter

/-- `format && format.formatString || this.defaultFormatString`: JS `||`
falls through on the empty string. -/
def formatFormatString (defaultFormatString : String)
    (format : Option IntegerColumnFormat) : String :=
  match format with
  | some f => if f.formatString ≠ "" then f.formatString else defaultFormatString
  | none => defaultFormatString

/-- `format && format.multiplier ? valueParam * format.multiplier :
valueParam`: JS `&&`/`?:` treat a missing or zero multiplier as falsy. -/
def formatValue (format : Option IntegerColumnFormat) (valueParam : ℚ) : ℚ :=
  match format with
  | some f =>
    match f.multiplier with
    | some m => if m ≠ 0 then valueParam * m else valueParam
    | none => valueParam
  | none => valueParam

/-- `IntegerColumnFormatter.format`: delegate to the external
`dh.i18n.NumberFormat.format` (`dhFormat`, `none` = throws); a throw is
logged and the empty string returned. -/
def format (dhFormat : String → ℚ → Option String) (defaultFormatString : String)
    (formatObj : Option IntegerColumnFormat) (valueParam : ℚ) : String :=
  (dhFormat (formatFormatString defaultFormatString formatObj)
    (formatValue formatObj valueParam)).getD ""

end IntegerColumnFormatter

/-- C4: when constructing a filter or a number format fails (the external
builder throws, i.e. returns `none` in this embedding), the failure degrades
instead of propagating: `hydrateQuickFilters` maps that column index to an
entry with its saved text and a `null` filter,
`getFiltersFromInputFilters` omits that filter from its result (dropping the
failing entry leaves the result unchanged), and
`IntegerColumnFormatter.format` returns the empty string.  All three
operations are total functions of the embedding — none of them throws. -/
theorem c4_error_degradation :
    (∀ (φ : Type) (mqf : Column → String → String → Option φ)
      (columns : List Column) (saved : List (Int × String)) (timeZone : String)
      (ci : Int) (text : String), (ci, text) ∈ saved →
      (∀ c, IrisGridUtils.getColumn columns ci = some c → mqf c text timeZone = none) →
      (ci, { text := text, filter := none }) ∈
        IrisGridUtils.hydrateQuickFilters mqf columns saved timeZone)
    ∧ (∀ (φ : Type) (mqf : Column → String → String → Option φ)
      (columns : List Column) (timeZone : String) (f : InputFilter)
      (pre post : List InputFilter),
      (∀ c, (columns.find? fun c => c.name == f.name && c.type == f.type) = some c →
        mqf c f.value timeZone = none) →
      IrisGridUtils.getFiltersFromInputFilters mqf columns (pre ++ f :: post) timeZone
        = IrisGridUtils.getFiltersFromInputFilters mqf columns (pre ++ post) timeZone)
    ∧ (∀ (dhFormat : String → ℚ → Option String) (defaultFormatString : String)
      (formatObj : Option IntegerColumnFormat) (valueParam : ℚ),
      dhFormat (IntegerColumnFormatter.formatFormatString defaultFormatString formatObj)
          (IntegerColumnFormatter.formatValue formatObj valueParam) = none →
      IntegerColumnFormatter.format dhFormat defaultFormatString formatObj valueParam
        = "") := by
  refine ⟨?_, ?_, ?_⟩
  · intro φ mqf columns saved timeZone ci text hmem hfail
    have hval : (match IrisGridUtils.getColumn columns ci with
        | some column => mqf column text timeZone
        | none => none) = (none : Option φ) := by
      cases hcol : IrisGridUtils.getColumn columns ci with
      | none => rfl
      | some c => exact hfail c hcol
    simp only [IrisGridUtils.hydrateQuickFilters, List.mem_map]
    exact ⟨(ci, text), hmem, by simp [hval]⟩
  · intro φ mqf columns timeZone f pre post hfail
    have hmid : (match columns.find? fun c => c.name == f.name && c.type == f.type with
        | some column => mqf column f.value timeZone
        | none => none) = (none : Option φ) := by
      cases hcol : columns.find? fun c => c.name == f.name && c.type == f.type with
      | none => rfl
      | some c => exact hfail c hcol
    simp [IrisGridUtils.getFiltersFromInputFilters, List.map_append,
      List.filterMap_append, hmid]
  · intro dhFormat defaultFormatString formatObj valueParam hthrow
    simp [IntegerColumnFormatter.format, hthrow]

/-- Witness for C4: a constant-throwing builder yields a null-filter entry,
an unchanged filter list, and the empty formatted string. -/
theorem c4_error_degradation_witness :
    ((0 : Int), ({ text := "gt 5", filter := none } : QuickFilterEntry Nat)) ∈
      IrisGridUtils.hydrateQuickFilters (fun _ _ _ => (none : Option Nat))
        [Column.mk "A" "int"] [((0 : Int), "gt 5")] "UTC"
    ∧ IrisGridUtils.getFiltersFromInputFilters (fun _ _ _ => (none : Option Nat))
        [Column.mk "A" "int"] ([] ++ InputFilter.mk "A" "int" "5" :: []) "UTC"
      = IrisGridUtils.getFiltersFromInputFilters (fun _ _ _ => (none : Option Nat))
        [Column.mk "A" "int"] ([] ++ []) "UTC"
    ∧ IntegerColumnFormatter.format (fun _ _ => none) "###,##0" none 3 = "" := by
  refine ⟨?_, ?_, ?_⟩
  · exact c4_error_degradation.1 Nat _ _ _ _ 0 "gt 5" (by simp) (fun c _ => rfl)
  · exact c4_error_degradation.2.1 Nat _ _ _ _ [] [] (fun c _ => rfl)
  · exact c4_error_degradation.2.2 _ _ none 3 rfl

/-! ### IrisGridTableModel state (C5, C7, C9, C10)

The model's mutable fields that the claims touch, as one state record.
Row/column indices of the pending-data map are JS numbers (`ℚ`), because
`IrisGridUtils.isValidIndex` rejects non-integer numbers. -/

/-- `IrisGridUtils.isValidIndex`: an integer number that is at least 0.
(`typeof value === 'number'` always holds for a `ℚ`-modelled number;
`Number.isInteger` is the denominator-1 check.) -/
def IrisGridUtils.isValidIndex (value : ℚ) : Bool :=
  if ¬value.den = 1 then false
  else decide (0 ≤ value)

/-- A `UIRow` of pending data: a sparse map from column index to an (opaque)
cell value. -/
structure UIRow where
  data : List (ℚ × String)
deriving DecidableEq, Repr

/-- `PendingDataMap`: sparse map from new-row index to its row. -/
abbrev PendingDataMap := List (ℚ × UIRow)

/-- The slice of the external `dh.Table` the model reads: its `size`. -/
structure TableState where
  size : ℚ
deriving DecidableEq, Repr

/-- The stored viewport.  `columns` is an opaque token standing for the JS
array reference: `setViewport` compares it with `===` (object identity), so
only identity of the token matters. -/
structure Viewport where
  top : ℚ
  bottom : ℚ
  columns : Nat
deriving DecidableEq, Repr

/-- The `IrisGridTableModel` state touched by the claims.  `subscription`
is an opaque token (`null` = no subscription). -/
structure ModelState where
  table : TableState
  viewport : Option Viewport
  subscription : Option Nat
  pendingNewDataMap : PendingDataMap
  pendingNewRowCount : ℚ
  pendingNewDataErrors : List (ℚ × String)
  formattedStringData : List String
  isSaveInProgress : Bool
deriving DecidableEq, Repr

namespace IrisGridTableModel

/-- The state set up by the `IrisGridTableModel` constructor. -/
def init (table : TableState) : ModelState :=
  { table := table
    viewport := none
    subscription := none
    pendingNewDataMap := []
    pendingNewRowCount := 0
    pendingNewDataErrors := []
    formattedStringData := []
    isSaveInProgress := false }

/-- `Math.max(a, ...rest)` over a non-empty argument list. -/
def mathMax1 : ℚ → List ℚ → ℚ
  | a, [] => a
  | a, b :: rest => mathMax1 (max a b) rest

/-- `get maxPendingDataRow`: `size > 0 ? Math.max(...keys()) + 1 : 0`. -/
def maxPendingDataRow (m : PendingDataMap) : ℚ :=
  match m.map Prod.fst with
  | [] => 0
  | k :: ks => mathMax1 k ks + 1

/-- The validation loop over one row's data inside the `pendingDataMap`
setter: the first invalid column index throws. -/
def validateRowData : List (ℚ × String) → Option String
  | [] => none
  | (columnIndex, _) :: rest =>
    if ¬IrisGridUtils.isValidIndex columnIndex then some "Invalid columnIndex"
    else validateRowData rest

/-- The validation loop of the `pendingDataMap` setter: the first invalid
row or column index throws. -/
def validatePendingDataMap : PendingDataMap → Option String
  | [] => none
  | (rowIndex, row) :: rest =>
    if ¬IrisGridUtils.isValidIndex rowIndex then some "Invalid rowIndex"
    else
      match validateRowData row.data with
      | some e => some e
      | none => validatePendingDataMap rest

/-- The `set pendingDataMap` accessor: identical map is a no-op; otherwise
every index is validated before any state is modified, and on success the
map is stored, the pending row count grows to cover it, and the formatted
string cache is cleared.  Reference equality of the maps is modelled by
value equality. -/
def setPendingDataMap (st : ModelState) (m : PendingDataMap) :
    Except String ModelState :=
  if m = st.pendingNewDataMap then Except.ok st
  else
    match validatePendingDataMap m with
    | some e => Except.error e
    | none => Except.ok
        { st with
          pendingNewDataMap := m
          pendingNewRowCount := max st.pendingNewRowCount (maxPendingDataRow m)
          formattedStringData := [] }

/-- The `set pendingRowCount` accessor: `Math.max(0, count,
maxPendingDataRow)`. -/
def setPendingRowCount (st : ModelState) (count : ℚ) : ModelState :=
  if count = st.pendingNewRowCount then st
  else
    { st with
      pendingNewRowCount :=
        max 0 (max count (maxPendingDataRow st.pendingNewDataMap)) }

/-- `commitPending`: throws when nothing is pending; otherwise delegates to
the external `inputTable.addRows` (its success is the `addRowsSucceeds`
input).  On success the pending state is reset; on failure the `finally`
block only clears `isSaveInProgress` and the error propagates.  The second
component is the thrown error, if any. -/
def commitPending (st : ModelState) (addRowsSucceeds : Bool) :
    ModelState × Option String :=
  if st.pendingNewDataMap.length ≤ 0 then
    (st, some "No pending changes to commit")
  else if addRowsSucceeds then
    ({ st with
        pendingNewDataMap := []
        pendingNewDataErrors := []
        pendingNewRowCount :=
          max 0 (((st.viewport.map Viewport.bottom).getD 0) - st.table.size)
        formattedStringData := []
        isSaveInProgress := false }, none)
  else ({ st with isSaveInProgress := false }, some "addRows failed")

/-- `IrisGridTableModel.ROW_BUFFER_PAGES`. -/
def ROW_BUFFER_PAGES : ℚ := 1

/-- `getCachedViewportRowRange`: one buffer page of rows above (clamped at
0) and below the visible range. -/
def getCachedViewportRowRange (top bottom : ℚ) : ℚ × ℚ :=
  let viewHeight := bottom - top
  (max 0 (top - viewHeight * ROW_BUFFER_PAGES),
    bottom + viewHeight * ROW_BUFFER_PAGES)

/-- `setViewport` (the throttled body): an inverted range logs and returns;
a viewport identical to the stored one (same `top`, `bottom` and the same
`columns` reference) is ignored; otherwise the viewport is stored and
`applyViewport` scheduled.  The boolean records whether `applyViewport` was
invoked. -/
def setViewport (st : ModelState) (top bottom : ℚ) (columns : Nat) :
    ModelState × Bool :=
  if bottom < top then (st, false)
  else
    match st.viewport with
    | some v =>
      if v.top = top ∧ v.bottom = bottom ∧ v.columns = columns then (st, false)
      else ({ st with viewport := some (Viewport.mk top bottom columns) }, true)
    | none => ({ st with viewport := some (Viewport.mk top bottom columns) }, true)

/-- `applyViewport` (the throttled body): nothing without a stored viewport;
otherwise the buffered row range and the stored columns are applied to the
table via `applyBufferedViewport` (returned here as the applied
arguments). -/
def applyViewport (st : ModelState) : Option (ℚ × ℚ × Nat) :=
  st.viewport.map fun v =>
    let r := getCachedViewportRowRange v.top v.bottom
    (r.1, r.2, v.columns)

end IrisGridTableModel

/-- C7: with `ROW_BUFFER_PAGES = 1`, `applyViewport` applies the row range
`[max(0, top - (bottom - top) * ROW_BUFFER_PAGES),
bottom + (bottom - top) * ROW_BUFFER_PAGES]` for the stored viewport
`{top, bottom}` with `top ≤ bottom` — one extra page of rows above (clamped
at 0) and below the visible range. -/
theorem c7_buffered_viewport :
    IrisGridTableModel.ROW_BUFFER_PAGES = 1
    ∧ ∀ (st : ModelState) (top bottom : ℚ) (cols : Nat),
      st.viewport = some (Viewport.mk top bottom cols) → top ≤ bottom →
      IrisGridTableModel.applyViewport st =
        some (max 0 (top - (bottom - top) * IrisGridTableModel.ROW_BUFFER_PAGES),
          bottom + (bottom - top) * IrisGridTableModel.ROW_BUFFER_PAGES, cols) := by
  refine ⟨rfl, ?_⟩
  intro st top bottom cols hv _
  simp [IrisGridTableModel.applyViewport, hv,
    IrisGridTableModel.getCachedViewportRowRange]

/-- Witness for C7 at the viewport `{top := 10, bottom := 20}`. -/
theorem c7_buffered_viewport_witness :
    IrisGridTableModel.applyViewport
        (ModelState.mk (TableState.mk 100) (some (Viewport.mk 10 20 0)) none [] 0 [] [] false)
      = some (max 0 (10 - (20 - 10) * IrisGridTableModel.ROW_BUFFER_PAGES),
          20 + (20 - 10) * IrisGridTableModel.ROW_BUFFER_PAGES, 0) :=
  c7_buffered_viewport.2 _ 10 20 0 rfl (by norm_num)

/-- C10: a `setViewport` call with `bottom < top` logs and returns without
storing or applying anything, and a call identical to the stored viewport
(same `top`, `bottom` and `columns` reference) is likewise a no-op: the
state is unchanged and `applyViewport` is not invoked. -/
theorem c10_setViewport_noop :
    ∀ (st : ModelState) (top bottom : ℚ) (cols : Nat),
      (bottom < top → IrisGridTableModel.setViewport st top bottom cols = (st, false))
      ∧ (st.viewport = some (Viewport.mk top bottom cols) →
        IrisGridTableModel.setViewport st top bottom cols = (st, false)) := by
  intro st top bottom cols
  constructor
  · intro h
    simp [IrisGridTableModel.setViewport, h]
  · intro h
    by_cases hb : bottom < top
    · simp [IrisGridTableModel.setViewport, hb]
    · simp [IrisGridTableModel.setViewport, hb, h]

/-- Witness for C10: an inverted range and an exact duplicate are both
no-ops. -/
theorem c10_setViewport_noop_witness :
    IrisGridTableModel.setViewport
        (ModelState.mk (TableState.mk 100) none none [] 0 [] [] false) 5 3 7
      = (ModelState.mk (TableState.mk 100) none none [] 0 [] [] false, false)
    ∧ IrisGridTableModel.setViewport
        (ModelState.mk (TableState.mk 100) (some (Viewport.mk 0 10 5)) none [] 0 [] [] false)
        0 10 5
      = (ModelState.mk (TableState.mk 100) (some (Viewport.mk 0 10 5)) none [] 0 [] [] false,
          false) :=
  ⟨(c10_setViewport_noop _ 5 3 7).1 (by norm_num),
    (c10_setViewport_noop _ 0 10 5).2 rfl⟩

/-! ### Pending-data validation (C5) -/

theorem validateRowData_none (data : List (ℚ × String))
    (h : IrisGridTableModel.validateRowData data = none) :
    ∀ c ∈ data, IrisGridUtils.isValidIndex c.1 = true := by
  induction data with
  | nil => intro c hc; simp at hc
  | cons hd tl ih =>
    obtain ⟨ci, v⟩ := hd
    by_cases hv : IrisGridUtils.isValidIndex ci = true
    · intro c hc
      rcases List.mem_cons.mp hc with hc | hc
      · subst hc; exact hv
      · have htl : IrisGridTableModel.validateRowData tl = none := by
          simpa [IrisGridTableModel.validateRowData, hv] using h
        exact ih htl c hc
    · simp [IrisGridTableModel.validateRowData, hv] at h

theorem validatePendingDataMap_none (m : PendingDataMap)
    (h : IrisGridTableModel.validatePendingDataMap m = none) :
    ∀ e ∈ m, IrisGridUtils.isValidIndex e.1 = true ∧
      ∀ c ∈ e.2.data, IrisGridUtils.isValidIndex c.1 = true := by
  induction m with
  | nil => intro e he; simp at he
  | cons hd tl ih =>
    obtain ⟨ri, row⟩ := hd
    by_cases hv : IrisGridUtils.isValidIndex ri = true
    · cases hrow : IrisGridTableModel.validateRowData row.data with
      | some e => simp [IrisGridTableModel.validatePendingDataMap, hv, hrow] at h
      | none =>
        have htl : IrisGridTableModel.validatePendingDataMap tl = none := by
          simpa [IrisGridTableModel.validatePendingDataMap, hv, hrow] using h
        intro e he
        rcases List.mem_cons.mp he with he | he
        · subst he
          exact ⟨hv, validateRowData_none row.data hrow⟩
        · exact ih htl e he
    · simp [IrisGridTableModel.validatePendingDataMap, hv] at h

/-- C5: assigning `pendingDataMap` throws whenever the new map (when
different from the current one) holds a row index, or a column index inside
some row's data, for which `isValidIndex` is false; the error is raised
before any state is modified, so the model's `pendingNewDataMap` and
`pendingNewRowCount` are untouched (the setter returns no new state). -/
theorem c5_pendingDataMap_setter_throws (st : ModelState) (m : PendingDataMap)
    (hne : m ≠ st.pendingNewDataMap)
    (hbad : ∃ e ∈ m, IrisGridUtils.isValidIndex e.1 = false ∨
      ∃ c ∈ e.2.data, IrisGridUtils.isValidIndex c.1 = false) :
    ∃ msg, IrisGridTableModel.setPendingDataMap st m = Except.error msg := by
  have hval : ∃ msg, IrisGridTableModel.validatePendingDataMap m = some msg := by
    cases hv : IrisGridTableModel.validatePendingDataMap m with
    | some msg => exact ⟨msg, rfl⟩
    | none =>
      exfalso
      obtain ⟨e, he, hb⟩ := hbad
      have := validatePendingDataMap_none m hv e he
      rcases hb with hb | ⟨c, hc, hb⟩
      · simp [this.1] at hb
      · have hcv := this.2 c hc
        simp [hcv] at hb
  obtain ⟨msg, hmsg⟩ := hval
  exact ⟨msg, by simp [IrisGridTableModel.setPendingDataMap, hne, hmsg]⟩

/-- Witness for C5: a map holding the invalid (negative) row index `-1`
makes the setter throw. -/
theorem c5_pendingDataMap_setter_throws_witness :
    ∃ msg, IrisGridTableModel.setPendingDataMap
        (ModelState.mk (TableState.mk 100) none none [] 0 [] [] false)
        [((-1 : ℚ), UIRow.mk [])]
      = Except.error msg :=
  c5_pendingDataMap_setter_throws _ _ (by simp)
    ⟨((-1 : ℚ), UIRow.mk []), by simp, Or.inl (by decide)⟩

/-! ### The pending-row-count invariant (C9) -/

theorem le_mathMax1 (l : List ℚ) (a x : ℚ) (h : x ≤ a) :
    x ≤ IrisGridTableModel.mathMax1 a l := by
  induction l generalizing a with
  | nil => simpa [IrisGridTableModel.mathMax1] using h
  | cons b rest ih =>
    exact ih (max a b) (le_trans h (le_max_left a b))

theorem mem_le_mathMax1 (l : List ℚ) (a x : ℚ) (h : x = a ∨ x ∈ l) :
    x ≤ IrisGridTableModel.mathMax1 a l := by
  induction l generalizing a with
  | nil =>
    rcases h with h | h
    · subst h; simp [IrisGridTableModel.mathMax1]
    · simp at h
  | cons b rest ih =>
    rcases h with h | h
    · subst h
      exact le_mathMax1 rest (max x b) x (le_max_left x b)
    · rcases List.mem_cons.mp h with h | h
      · subst h
        exact le_mathMax1 rest (max a x) x (le_max_right a x)
      · exact ih (max a b) (Or.inr h)

theorem le_maxPendingDataRow (m : PendingDataMap) (e : ℚ × UIRow) (he : e ∈ m) :
    e.1 + 1 ≤ IrisGridTableModel.maxPendingDataRow m := by
  have hmem : e.1 ∈ m.map Prod.fst := List.mem_map_of_mem Prod.fst he
  unfold IrisGridTableModel.maxPendingDataRow
  cases hm : m.map Prod.fst with
  | nil => rw [hm] at hmem; simp at hmem
  | cons k ks =>
    rw [hm] at hmem
    rcases List.mem_cons.mp hmem with h | h
    · exact add_le_add_right (mem_le_mathMax1 ks k e.1 (Or.inl h)) 1
    · exact add_le_add_right (mem_le_mathMax1 ks k e.1 (Or.inr h)) 1

/-- The invariant of C9: the pending row count is non-negative and exceeds
every row index in the pending data map (it is at least `maxPendingDataRow`,
i.e. at least one greater than every present row index). -/
def PendingInv (st : ModelState) : Prop :=
  0 ≤ st.pendingNewRowCount ∧
    ∀ e ∈ st.pendingNewDataMap, e.1 + 1 ≤ st.pendingNewRowCount

/-- C9: `pendingNewRowCount ≥ maxPendingDataRow` (one more than every row
index in `pendingNewDataMap`) and `pendingNewRowCount ≥ 0` holds in the
initial state and is preserved by the `pendingDataMap` setter, the
`pendingRowCount` setter, and `commitPending` (whether or not the external
`addRows` succeeds). -/
theorem c9_pending_row_count_invariant :
    (∀ t, PendingInv (IrisGridTableModel.init t))
    ∧ (∀ st m st', PendingInv st →
        IrisGridTableModel.setPendingDataMap st m = Except.ok st' → PendingInv st')
    ∧ (∀ st c, PendingInv st → PendingInv (IrisGridTableModel.setPendingRowCount st c))
    ∧ (∀ st ok, PendingInv st → PendingInv (IrisGridTableModel.commitPending st ok).1) := by
  refine ⟨?_, ?_, ?_, ?_⟩
  · intro t
    constructor
    · simp [IrisGridTableModel.init]
    · intro e he
      simp [IrisGridTableModel.init] at he
  · intro st m st' hinv hok
    by_cases heq : m = st.pendingNewDataMap
    · rw [IrisGridTableModel.setPendingDataMap, if_pos heq] at hok
      cases hok
      exact hinv
    · rw [IrisGridTableModel.setPendingDataMap, if_neg heq] at hok
      cases hval : IrisGridTableModel.validatePendingDataMap m with
      | some e => rw [hval] at hok; cases hok
      | none =>
        rw [hval] at hok
        cases hok
        constructor
        · exact le_trans hinv.1 (le_max_left _ _)
        · intro e he
          exact le_trans (le_maxPendingDataRow m e he) (le_max_right _ _)
  · intro st c hinv
    unfold IrisGridTableModel.setPendingRowCount
    split
    · exact hinv
    · constructor
      · exact le_max_left 0 _
      · intro e he
        exact le_trans (le_trans (le_maxPendingDataRow _ e he) (le_max_right c _))
          (le_max_right 0 _)
  · intro st ok hinv
    unfold IrisGridTableModel.commitPending
    split
    · exact hinv
    · split
      · constructor
        · exact le_max_left 0 _
        · intro e he
          simp at he
      · exact hinv

/-- Witness for C9: the invariant holds in the initial state and is kept by
a row-count assignment of `-5` (clamped to cover the map). -/
theorem c9_pending_row_count_invariant_witness :
    PendingInv (IrisGridTableModel.init (TableState.mk 100))
    ∧ PendingInv (IrisGridTableModel.setPendingRowCount
        (IrisGridTableModel.init (TableState.mk 100)) (-5)) :=
  ⟨c9_pending_row_count_invariant.1 _,
    c9_pending_row_count_invariant.2.2.1 _ (-5) (c9_pending_row_count_invariant.1 _)⟩

/-! ### Snapshot range validation (C6)

`isValidSnapshotRanges` keys a map by the string `"${startRow}:${endRow}"`
and collects the strings `"${startColumn}:${endColumn}"` per key, then
compares each key group's `sort().join(',')` against the first group's.
The string forms are injective in the underlying pairs and comma-free, so:
the keys are modelled by the `(start, end)` pairs themselves, the string
sort by a (lexicographic) total order on pairs, and the join comparison by
list equality — every step preserves the boolean result, which only depends
on equality of the sorted groups. -/

/-- A `${a}:${b}` span: the pair of endpoints (`null` allowed). -/
abbrev Span := Option ℚ × Option ℚ

/-- A `GridRange` from `@deephaven/grid` (constructor argument order is
`(startColumn, startRow, endColumn, endRow)`); `null` means the whole
axis. -/
structure GridRange where
  startColumn : Option ℚ
  startRow : Option ℚ
  endColumn : Option ℚ
  endRow : Option ℚ
deriving DecidableEq, Repr

/-- The row span `${startRow}:${endRow}` of a range (the map key). -/
def rowSpan (r : GridRange) : Span := (r.startRow, r.endRow)

/-- The column span `${startColumn}:${endColumn}` of a range. -/
def colSpan (r : GridRange) : Span := (r.startColumn, r.endColumn)

/-- Strict order on optional endpoints (`null` first). -/
def optLtB : Option ℚ → Option ℚ → Bool
  | none, none => false
  | none, some _ => true
  | some _, none => false
  | some x, some y => decide (x < y)

/-- Non-strict order on optional endpoints (`null` first). -/
def optLeB : Option ℚ → Option ℚ → Bool
  | none, _ => true
  | some _, none => false
  | some x, some y => decide (x ≤ y)

/-- A total order on spans, canonicalizing the JS string sort of the span
strings: sorted-list equality under any total order is multiset equality,
which is what the comparison observes. -/
def spanLeB (a b : Span) : Bool :=
  if a.1 = b.1 then optLeB a.2 b.2 else optLtB a.1 b.1

/-- The `[...].sort()` canonicalization of a group of column spans. -/
def sortSpans (l : List Span) : List Span := l.mergeSort spanLeB

/-- The `rangeMap` of `isValidSnapshotRanges`: insertion-ordered groups of
column spans keyed by row span. -/
abbrev RangeMap := List (Span × List Span)

/-- `rangeMap.get(rowMapIndex)` (first binding). -/
def lookupSpans (m : RangeMap) (k : Span) : Option (List Span) :=
  match m with
  | [] => none
  | (k0, cs) :: rest => if k0 = k then some cs else lookupSpans rest k

/-- One loop iteration of `isValidSnapshotRanges`: append the column span
to the row key's group, creating the group if absent. -/
def insertSpan : RangeMap → Span → Span → RangeMap
  | [], rk, ck => [(rk, [ck])]
  | (k, cs) :: rest, rk, ck =>
    if k = rk then (k, cs ++ [ck]) :: rest
    else (k, cs) :: insertSpan rest rk ck

/-- The `rangeMap` built by the first loop of `isValidSnapshotRanges`. -/
def buildRangeMap (ranges : List GridRange) : RangeMap :=
  ranges.foldl (fun m r => insertSpan m (rowSpan r) (colSpan r)) []

/-- The column spans of all ranges sharing a given row span, in order. -/
def colSpansOf (ranges : List GridRange) (k : Span) : List Span :=
  (ranges.filter fun r => decide (rowSpan r = k)).map colSpan

/-- `IrisGridUtils.isValidSnapshotRanges`: false for a null/empty list;
otherwise every row group's sorted column spans must equal the first
group's. -/
def IrisGridUtils.isValidSnapshotRanges (ranges : List GridRange) : Bool :=
  if ranges.isEmpty then false
  else
    match buildRangeMap ranges with
    | [] => true
    | (_, cs0) :: rest => rest.all fun g => sortSpans g.2 == sortSpans cs0

/-- `IrisGridTableModel.snapshot`, up to its validation guards: with no
subscription, or with consolidated ranges that are not valid snapshot
ranges, it throws; otherwise the data assembly proceeds against the
external subscription with the validated consolidated ranges (returned
here).  `GridRange.consolidate` lives in `@deephaven/grid` and is passed
in. -/
def IrisGridTableModel.snapshot (consolidate : List GridRange → List GridRange)
    (st : ModelState) (ranges : List GridRange) : Except String (List GridRange) :=
  if st.subscription = none then Except.error "No subscription available"
  else
    let consolidated := consolidate ranges
    if ¬IrisGridUtils.isValidSnapshotRanges consolidated then
      Except.error "Invalid snapshot ranges"
    else Except.ok consolidated

/-! #### The span order is total, transitive and antisymmetric -/

theorem optLeB_total (a b : Option ℚ) : (optLeB a b || optLeB b a) = true := by
  rcases a with _ | x <;> rcases b with _ | y <;> simp [optLeB]
  exact le_total x y

theorem optLeB_trans (a b c : Option ℚ) (h1 : optLeB a b = true)
    (h2 : optLeB b c = true) : optLeB a c = true := by
  rcases a with _ | x <;> rcases b with _ | y <;> rcases c with _ | z <;>
    simp [optLeB] at h1 h2 ⊢
  exact le_trans h1 h2

theorem optLeB_antisymm (a b : Option ℚ) (h1 : optLeB a b = true)
    (h2 : optLeB b a = true) : a = b := by
  rcases a with _ | x <;> rcases b with _ | y <;> simp [optLeB] at h1 h2 ⊢
  exact le_antisymm h1 h2

theorem optLtB_total_of_ne (a b : Option ℚ) (h : a ≠ b) :
    (optLtB a b || optLtB b a) = true := by
  rcases a with _ | x <;> rcases b with _ | y
  · exact absurd rfl h
  · simp [optLtB]
  · simp [optLtB]
  · have hxy : x ≠ y := fun hh => h (by rw [hh])
    simp [optLtB]
    exact hxy

theorem optLtB_trans (a b c : Option ℚ) (h1 : optLtB a b = true)
    (h2 : optLtB b c = true) : optLtB a c = true := by
  rcases a with _ | x <;> rcases b with _ | y <;> rcases c with _ | z <;>
    simp [optLtB] at h1 h2 ⊢
  exact lt_trans h1 h2

theorem optLtB_asymm (a b : Option ℚ) (h1 : optLtB a b = true)
    (h2 : optLtB b a = true) : False := by
  rcases a with _ | x <;> rcases b with _ | y <;> simp [optLtB] at h1 h2
  exact lt_asymm h1 h2

theorem spanLeB_total (a b : Span) : (spanLeB a b || spanLeB b a) = true := by
  by_cases h : a.1 = b.1
  · simp [spanLeB, h, optLeB_total a.2 b.2]
  · have h2 : ¬b.1 = a.1 := fun hh => h hh.symm
    simp [spanLeB, h, h2, optLtB_total_of_ne a.1 b.1 h]

theorem spanLeB_trans (a b c : Span) (h1 : spanLeB a b = true)
    (h2 : spanLeB b c = true) : spanLeB a c = true := by
  by_cases hab : a.1 = b.1 <;> by_cases hbc : b.1 = c.1
  · have hac : a.1 = c.1 := hab.trans hbc
    rw [spanLeB, if_pos hab] at h1
    rw [spanLeB, if_pos hbc] at h2
    rw [spanLeB, if_pos hac]
    exact optLeB_trans _ _ _ h1 h2
  · have hac : ¬a.1 = c.1 := fun hh => hbc (hab.symm.trans hh)
    rw [spanLeB, if_neg hbc] at h2
    rw [spanLeB, if_neg hac, hab]
    exact h2
  · have hac : ¬a.1 = c.1 := fun hh => hab (hh.trans hbc.symm)
    rw [spanLeB, if_neg hab] at h1
    rw [spanLeB, if_neg hac, ← hbc]
    exact h1
  · rw [spanLeB, if_neg hab] at h1
    rw [spanLeB, if_neg hbc] at h2
    by_cases hac : a.1 = c.1
    · exfalso
      rw [hac] at h1
      exact optLtB_asymm _ _ h2 h1
    · rw [spanLeB, if_neg hac]
      exact optLtB_trans _ _ _ h1 h2

theorem spanLeB_antisymm (a b : Span) (h1 : spanLeB a b = true)
    (h2 : spanLeB b a = true) : a = b := by
  by_cases hab : a.1 = b.1
  · rw [spanLeB, if_pos hab] at h1
    rw [spanLeB, if_pos hab.symm] at h2
    have := optLeB_antisymm _ _ h1 h2
    exact Prod.ext hab this
  · exfalso
    have hba : ¬b.1 = a.1 := fun hh => hab hh.symm
    rw [spanLeB, if_neg hab] at h1
    rw [spanLeB, if_neg hba] at h2
    exact optLtB_asymm _ _ h1 h2

/-- Sorted-list equality under `sortSpans` is exactly permutation (multiset
equality) of the groups. -/
theorem sortSpans_eq_iff (l1 l2 : List Span) :
    sortSpans l1 = sortSpans l2 ↔ l1.Perm l2 := by
  constructor
  · intro h
    simp only [sortSpans] at h
    have p1 := List.mergeSort_perm l1 spanLeB
    have p2 := List.mergeSort_perm l2 spanLeB
    rw [h] at p1
    exact p1.symm.trans p2
  · intro h
    have s1 := @List.sorted_mergeSort Span spanLeB
      (fun a b c => spanLeB_trans a b c) (fun a b => spanLeB_total a b) l1
    have s2 := @List.sorted_mergeSort Span spanLeB
      (fun a b c => spanLeB_trans a b c) (fun a b => spanLeB_total a b) l2
    have hperm : (l1.mergeSort spanLeB).Perm (l2.mergeSort spanLeB) :=
      ((List.mergeSort_perm l1 spanLeB).trans h).trans
        (List.mergeSort_perm l2 spanLeB).symm
    haveI : IsAntisymm Span (fun a b => spanLeB a b = true) :=
      ⟨fun a b => spanLeB_antisymm a b⟩
    simp only [sortSpans]
    exact List.eq_of_perm_of_sorted hperm s1 s2

/-! #### The range map groups column spans by row span -/

theorem lookupSpans_insertSpan (m : RangeMap) (rk ck k : Span) :
    lookupSpans (insertSpan m rk ck) k =
      if k = rk then some ((lookupSpans m rk).getD [] ++ [ck])
      else lookupSpans m k := by
  induction m with
  | nil =>
    by_cases h : k = rk
    · subst h; simp [insertSpan, lookupSpans]
    · have h2 : ¬rk = k := fun hh => h hh.symm
      simp [insertSpan, lookupSpans, h, h2]
  | cons hd tl ih =>
    obtain ⟨k0, cs⟩ := hd
    by_cases h0 : k0 = rk
    · subst h0
      by_cases hk : k0 = k
      · subst hk
        simp [insertSpan, lookupSpans]
      · have hk2 : ¬k = k0 := fun hh => hk hh.symm
        simp [insertSpan, lookupSpans, hk, hk2]
    · by_cases hk : k0 = k
      · subst hk
        have hne : ¬k0 = rk := h0
        simp [insertSpan, lookupSpans, h0, hne]
      · simp [insertSpan, lookupSpans, h0, hk, ih]

theorem keys_insertSpan (m : RangeMap) (rk ck : Span) :
    (insertSpan m rk ck).map Prod.fst =
      if rk ∈ m.map Prod.fst then m.map Prod.fst
      else m.map Prod.fst ++ [rk] := by
  induction m with
  | nil => simp [insertSpan]
  | cons hd tl ih =>
    obtain ⟨k0, cs⟩ := hd
    by_cases h0 : k0 = rk
    · subst h0
      simp [insertSpan]
    · have h2 : ¬rk = k0 := fun hh => h0 hh.symm
      by_cases hmem : rk ∈ tl.map Prod.fst <;>
        simp [insertSpan, h0, h2, hmem, ih]

theorem nodupKeys_insertSpan (m : RangeMap) (rk ck : Span)
    (h : (m.map Prod.fst).Nodup) :
    ((insertSpan m rk ck).map Prod.fst).Nodup := by
  rw [keys_insertSpan]
  split
  · exact h
  case isFalse hc =>
    simp [List.nodup_append, h, hc]

theorem nodupKeys_buildRangeMap_aux (rs : List GridRange) :
    ∀ m : RangeMap, (m.map Prod.fst).Nodup →
      ((rs.foldl (fun m r => insertSpan m (rowSpan r) (colSpan r)) m).map
        Prod.fst).Nodup := by
  induction rs with
  | nil => intro m h; simpa using h
  | cons r rest ih =>
    intro m h
    exact ih _ (nodupKeys_insertSpan m (rowSpan r) (colSpan r) h)

theorem nodupKeys_buildRangeMap (rs : List GridRange) :
    ((buildRangeMap rs).map Prod.fst).Nodup :=
  nodupKeys_buildRangeMap_aux rs [] (by simp)

theorem lookupSpans_of_mem (m : RangeMap) (k : Span) (cs : List Span)
    (hnodup : (m.map Prod.fst).Nodup) (hm : (k, cs) ∈ m) :
    lookupSpans m k = some cs := by
  induction m with
  | nil => simp at hm
  | cons hd tl ih =>
    obtain ⟨k0, cs0⟩ := hd
    rcases List.mem_cons.mp hm with hm | hm
    · cases hm
      simp [lookupSpans]
    · by_cases hk : k0 = k
      · subst hk
        exfalso
        have : k0 ∈ tl.map Prod.fst := List.mem_map_of_mem Prod.fst hm
        exact (List.nodup_cons.mp (by simpa using hnodup)).1 this
      · simp only [lookupSpans, if_neg hk]
        exact ih (List.nodup_cons.mp (by simpa using hnodup)).2 hm

theorem mem_of_lookupSpans (m : RangeMap) (k : Span) (cs : List Span)
    (h : lookupSpans m k = some cs) : (k, cs) ∈ m := by
  induction m with
  | nil => simp [lookupSpans] at h
  | cons hd tl ih =>
    obtain ⟨k0, cs0⟩ := hd
    by_cases hk : k0 = k
    · subst hk
      simp [lookupSpans] at h
      subst h
      exact List.mem_cons_self _ _
    · simp only [lookupSpans, if_neg hk] at h
      exact List.mem_cons_of_mem _ (ih h)

theorem colSpansOf_cons (r : GridRange) (rs : List GridRange) (k : Span) :
    colSpansOf (r :: rs) k =
      (if rowSpan r = k then [colSpan r] else []) ++ colSpansOf rs k := by
  by_cases h : rowSpan r = k <;> simp [colSpansOf, List.filter_cons, h]

theorem lookupSpans_foldl (rs : List GridRange) :
    ∀ m : RangeMap, ∀ k : Span,
      lookupSpans (rs.foldl (fun m r => insertSpan m (rowSpan r) (colSpan r)) m) k =
        match lookupSpans m k with
        | some cs => some (cs ++ colSpansOf rs k)
        | none =>
          if rs.any fun r => decide (rowSpan r = k) then some (colSpansOf rs k)
          else none := by
  induction rs with
  | nil =>
    intro m k
    cases h : lookupSpans m k <;> simp [h, colSpansOf]
  | cons r rest ih =>
    intro m k
    simp only [List.foldl_cons]
    rw [ih (insertSpan m (rowSpan r) (colSpan r)) k, lookupSpans_insertSpan]
    by_cases hk : k = rowSpan r
    · subst hk
      cases h : lookupSpans m (rowSpan r) with
      | some cs => simp [h, colSpansOf_cons, List.any_cons]
      | none => simp [h, colSpansOf_cons, List.any_cons]
    · have hk2 : ¬rowSpan r = k := fun hh => hk hh.symm
      cases h : lookupSpans m k with
      | some cs => simp [hk, h, colSpansOf_cons, hk2, List.any_cons]
      | none => simp [hk, h, colSpansOf_cons, hk2, List.any_cons]

theorem lookupSpans_buildRangeMap (rs : List GridRange) (k : Span) :
    lookupSpans (buildRangeMap rs) k =
      if rs.any fun r => decide (rowSpan r = k) then some (colSpansOf rs k)
      else none := by
  have := lookupSpans_foldl rs [] k
  simpa [buildRangeMap, lookupSpans] using this

theorem lookupSpans_buildRangeMap_of_mem (rs : List GridRange) (r : GridRange)
    (hr : r ∈ rs) :
    lookupSpans (buildRangeMap rs) (rowSpan r) = some (colSpansOf rs (rowSpan r)) := by
  rw [lookupSpans_buildRangeMap]
  have : rs.any (fun x => decide (rowSpan x = rowSpan r)) = true :=
    List.any_eq_true.mpr ⟨r, hr, by simp⟩
  rw [if_pos this]

theorem buildRangeMap_group (rs : List GridRange) (k : Span) (cs : List Span)
    (h : (k, cs) ∈ buildRangeMap rs) :
    cs = colSpansOf rs k ∧ ∃ r ∈ rs, rowSpan r = k := by
  have hlook := lookupSpans_of_mem _ _ _ (nodupKeys_buildRangeMap rs) h
  rw [lookupSpans_buildRangeMap] at hlook
  by_cases hany : rs.any (fun r => decide (rowSpan r = k)) = true
  · rw [if_pos hany] at hlook
    obtain ⟨r, hr, hrk⟩ := List.any_eq_true.mp hany
    exact ⟨(Option.some.injEq _ _ ▸ hlook).symm.symm ▸ (by
      cases hlook; rfl), r, hr, by simpa using hrk⟩
  · rw [if_neg hany] at hlook
    cases hlook

theorem buildRangeMap_nonempty (rs : List GridRange) (r : GridRange) (hr : r ∈ rs) :
    buildRangeMap rs ≠ [] := by
  intro hnil
  have := lookupSpans_buildRangeMap_of_mem rs r hr
  rw [hnil] at this
  simp [lookupSpans] at this

/-- The characterization of `isValidSnapshotRanges` on the positive side:
true exactly for a non-empty list in which any two selected row spans carry
the same multiset of column spans. -/
theorem isValidSnapshotRanges_true_iff (rs : List GridRange) :
    IrisGridUtils.isValidSnapshotRanges rs = true ↔
      rs ≠ [] ∧ ∀ r1 ∈ rs, ∀ r2 ∈ rs,
        (colSpansOf rs (rowSpan r1) : Multiset Span) = colSpansOf rs (rowSpan r2) := by
  cases rs with
  | nil => simp [IrisGridUtils.isValidSnapshotRanges]
  | cons q qs =>
    cases hm : buildRangeMap (q :: qs) with
    | nil => exact absurd hm (buildRangeMap_nonempty _ q (List.mem_cons_self q qs))
    | cons g grest =>
      obtain ⟨k0, cs0⟩ := g
      have hg0 : (k0, cs0) ∈ buildRangeMap (q :: qs) := by
        rw [hm]; exact List.mem_cons_self _ _
      obtain ⟨hcs0, r0, hr0, hk0⟩ := buildRangeMap_group _ _ _ hg0
      have hgroup : ∀ r ∈ q :: qs,
          (rowSpan r, colSpansOf (q :: qs) (rowSpan r)) ∈ buildRangeMap (q :: qs) :=
        fun r hr => mem_of_lookupSpans _ _ _ (lookupSpans_buildRangeMap_of_mem _ r hr)
      simp only [IrisGridUtils.isValidSnapshotRanges, List.isEmpty_cons, hm,
        Bool.false_eq_true, if_false]
      constructor
      · intro hall
        have key : ∀ k cs, (k, cs) ∈ buildRangeMap (q :: qs) →
            (cs : Multiset Span) = (cs0 : Multiset Span) := by
          intro k cs hkcs
          rw [hm] at hkcs
          rcases List.mem_cons.mp hkcs with hkcs | hkcs
          · cases hkcs; rfl
          · have hb := List.all_eq_true.mp hall _ hkcs
            have heq : sortSpans cs = sortSpans cs0 := by simpa using hb
            exact Multiset.coe_eq_coe.mpr ((sortSpans_eq_iff cs cs0).mp heq)
        refine ⟨by simp, fun r1 h1 r2 h2 => ?_⟩
        have e1 := key _ _ (hgroup r1 h1)
        have e2 := key _ _ (hgroup r2 h2)
        exact e1.trans e2.symm
      · rintro ⟨-, hall⟩
        apply List.all_eq_true.mpr
        intro g hg
        obtain ⟨k, cs⟩ := g
        have hmem : (k, cs) ∈ buildRangeMap (q :: qs) := by
          rw [hm]; exact List.mem_cons_of_mem _ hg
        obtain ⟨hcs, r2, hr2, hk⟩ := buildRangeMap_group _ _ _ hmem
        have hms : (cs : Multiset Span) = (cs0 : Multiset Span) := by
          rw [hcs, hcs0, ← hk, ← hk0]
          exact hall r2 hr2 r0 hr0
        have hperm := Multiset.coe_eq_coe.mp hms
        have := (sortSpans_eq_iff cs cs0).mpr hperm
        simpa using this

/-- C6: `snapshot(ranges)` throws when no subscription exists or when the
consolidated ranges are not valid snapshot ranges; and
`isValidSnapshotRanges` returns false exactly when the range list is empty
(or null), or two entries with different `startRow:endRow` spans have
different multisets of `startColumn:endColumn` spans. -/
theorem c6_snapshot_validation :
    (∀ (consolidate : List GridRange → List GridRange) (st : ModelState)
      (ranges : List GridRange),
      (st.subscription = none →
        ∃ e, IrisGridTableModel.snapshot consolidate st ranges = Except.error e)
      ∧ (IrisGridUtils.isValidSnapshotRanges (consolidate ranges) = false →
        ∃ e, IrisGridTableModel.snapshot consolidate st ranges = Except.error e))
    ∧ (∀ rs : List GridRange,
        IrisGridUtils.isValidSnapshotRanges rs = false ↔
          rs = [] ∨ ∃ r1 ∈ rs, ∃ r2 ∈ rs, rowSpan r1 ≠ rowSpan r2 ∧
            (colSpansOf rs (rowSpan r1) : Multiset Span) ≠
              colSpansOf rs (rowSpan r2)) := by
  constructor
  · intro consolidate st ranges
    constructor
    · intro h
      exact ⟨"No subscription available", by simp [IrisGridTableModel.snapshot, h]⟩
    · intro h
      by_cases hs : st.subscription = none
      · exact ⟨"No subscription available", by simp [IrisGridTableModel.snapshot, hs]⟩
      · exact ⟨"Invalid snapshot ranges", by simp [IrisGridTableModel.snapshot, hs, h]⟩
  · intro rs
    rw [Bool.eq_false_iff, Ne, isValidSnapshotRanges_true_iff]
    push_neg
    constructor
    · intro h
      by_cases hnil : rs = []
      · exact Or.inl hnil
      · obtain ⟨r1, h1, r2, h2, hne⟩ := h hnil
        refine Or.inr ⟨r1, h1, r2, h2, ?_, hne⟩
        intro hrow
        exact hne (by rw [hrow])
    · intro h
      rcases h with hnil | ⟨r1, h1, r2, h2, -, hne⟩
      · intro hcontra; exact absurd hnil hcontra
      · intro _; exact ⟨r1, h1, r2, h2, hne⟩

/-- Witness for C6: with no subscription `snapshot` throws, and the empty
range list is not a valid snapshot selection. -/
theorem c6_snapshot_validation_witness :
    (∃ e, IrisGridTableModel.snapshot id
        (ModelState.mk (TableState.mk 100) none none [] 0 [] [] false) []
      = Except.error e)
    ∧ IrisGridUtils.isValidSnapshotRanges [] = false :=
  ⟨(c6_snapshot_validation.1 id _ []).1 rfl,
    (c6_snapshot_validation.2 []).mpr (Or.inl rfl)⟩

end WebClientUI
